import Mathlib

/-!
Verification development for the nmail full-text search core (`SearchEngine`)
and the application entry point (`main`).

The repository ships only the public header of `SearchEngine`
(src/src/searchengine.h) together with `main.cpp`; the implementation file of
`SearchEngine` is not part of the sources.  Following the specification, the
search core is therefore modelled here from the spec's words: a Tokenizer, a
Persistent Store holding committed documents, a Write Buffer of staged
operations, an atomic Commit, immutable Snapshots, and a ranked, paginated
Search.  The entry point `main` is embedded directly from main.cpp.
-/

/-! ## Tokenizer -/

/-- Modelled from the spec: the Tokenizer (spec section 4.1) is absent from the
sources; the spec requires case folding and punctuation/whitespace splitting,
applied identically at index and query time.  Accumulator-based scanner:
alphanumeric characters are case-folded and gathered, any other character
ends the current term. -/
def tokenizeAux : List Char → List Char → List String
  | [], acc => if acc.isEmpty then [] else [String.mk acc.reverse]
  | c :: cs, acc =>
    if c.isAlphanum then tokenizeAux cs (c.toLower :: acc)
    else if acc.isEmpty then tokenizeAux cs []
    else String.mk acc.reverse :: tokenizeAux cs []

/-- Modelled from the spec: normalize one input string into terms. -/
def tokenize (s : String) : List String :=
  tokenizeAux s.data []

/-- Modelled from the spec: tokenize all fields of one document into a flat
list of terms (spec section 4.1). -/
def tokenizeFields (fields : List String) : List String :=
  (fields.map tokenize).flatten

/-! ## Data model -/

/-- Modelled from the spec: a committed document, `{DocId, Terms}`
(spec section 3). -/
structure Doc where
  id : String
  terms : List String
deriving DecidableEq, Repr

/-- Modelled from the spec: a staged Write Buffer operation, either
"replace terms for docId" or "delete docId" (spec sections 3 and 4.2). -/
inductive Op where
  | indexDoc (docId : String) (terms : List String)
  | removeDoc (docId : String)
deriving DecidableEq, Repr

/-- Remove every document carrying the given id. -/
def eraseDoc (docId : String) (docs : List Doc) : List Doc :=
  docs.filter (fun d => d.id != docId)

/-- Modelled from the spec: applying one staged operation to the committed
document list.  Indexing is remove-then-add (spec section 3 invariants);
removal of a missing id is a no-op. -/
def applyOp (docs : List Doc) : Op → List Doc
  | Op.indexDoc docId terms => eraseDoc docId docs ++ [⟨docId, terms⟩]
  | Op.removeDoc docId => eraseDoc docId docs

/-- Apply a whole buffer of staged operations in order. -/
def applyOps (docs : List Doc) (ops : List Op) : List Doc :=
  ops.foldl applyOp docs

/-- Modelled from the spec: the durable Store — committed documents plus a
revision counter that advances on each successful commit (spec section 3). -/
structure Store where
  docs : List Doc
  revision : Nat
deriving DecidableEq, Repr

/-- Modelled from the spec: a Snapshot is an immutable point-in-time value of
the committed Store (spec sections 3 and 9). -/
abbrev Snapshot := Store

/-- Modelled from the spec: the search engine state: committed Store plus the
Write Buffer of operations staged since the last commit. -/
structure SearchEngine where
  store : Store
  buffer : List Op
deriving DecidableEq, Repr

/-- Modelled from the spec: `SearchEngine::Index` stages a
"replace terms for docId" operation in the Write Buffer (spec section 4.2). -/
def SearchEngine.Index (e : SearchEngine) (docId : String)
    (strs : List String) : SearchEngine :=
  { e with buffer := e.buffer ++ [Op.indexDoc docId (tokenizeFields strs)] }

/-- Modelled from the spec: `SearchEngine::Remove` stages a "delete docId"
operation (spec section 4.2). -/
def SearchEngine.Remove (e : SearchEngine) (docId : String) : SearchEngine :=
  { e with buffer := e.buffer ++ [Op.removeDoc docId] }

/-- Stage an arbitrary list of operations (used to quantify over write
sequences). -/
def SearchEngine.stageAll (e : SearchEngine) (ops : List Op) : SearchEngine :=
  { e with buffer := e.buffer ++ ops }

/-- Modelled from the spec: `SearchEngine::Commit`.  The `ioOk` argument
models whether the underlying storage I/O succeeds.  On success every
buffered operation is applied, the revision advances and the buffer is
cleared; on I/O failure the Store keeps its pre-commit state, the buffer's
pending operations are retained, and failure is signalled (spec section
4.2). -/
def SearchEngine.Commit (e : SearchEngine) (ioOk : Bool) :
    SearchEngine × Bool :=
  if ioOk then
    ({ store := { docs := applyOps e.store.docs e.buffer,
                  revision := e.store.revision + 1 },
       buffer := [] }, true)
  else (e, false)

/-- Modelled from the spec: opening a read Snapshot yields the current
committed Store as an immutable value (spec section 4.4). -/
def SearchEngine.GetSnapshot (e : SearchEngine) : Snapshot :=
  e.store

/-! ## Read path -/

/-- Modelled from the spec: `SearchEngine::Exists` — true iff the id is
present in the snapshot (spec section 4.3). -/
def Store.ExistsDoc (s : Store) (docId : String) : Bool :=
  s.docs.any (fun d => d.id == docId)

/-- Modelled from the spec: `SearchEngine::List` — all DocIds of the
snapshot, in stored order (deterministic for a fixed Snapshot,
spec section 4.3). -/
def Store.ListIds (s : Store) : List String :=
  s.docs.map Doc.id

/-- Modelled from the spec: frequency-weighted score of a document against
the query terms (spec sections 4.3 and 9: simple term-frequency scoring). -/
def score (qTerms : List String) (d : Doc) : Nat :=
  (qTerms.map (fun t => d.terms.count t)).sum

/-- Ranking order: descending score, ties broken by ascending DocId
(spec section 4.3: deterministic tie-break). -/
def rankRel (qTerms : List String) (a b : Doc) : Prop :=
  score qTerms b < score qTerms a ∨
    (score qTerms a = score qTerms b ∧ a.id ≤ b.id)

instance (qTerms : List String) (a b : Doc) :
    Decidable (rankRel qTerms a b) := by
  unfold rankRel; infer_instance

/-- Boolean form of the ranking order. -/
def rankLE (qTerms : List String) (a b : Doc) : Bool :=
  decide (rankRel qTerms a b)

/-- Insert a document into an already ranked list. -/
def insertRanked (le : Doc → Doc → Bool) (d : Doc) : List Doc → List Doc
  | [] => [d]
  | e :: es => if le d e then d :: e :: es else e :: insertRanked le d es

/-- Insertion sort by the given ranking order (deterministic). -/
def sortRanked (le : Doc → Doc → Bool) : List Doc → List Doc
  | [] => []
  | d :: ds => insertRanked le d (sortRanked le ds)

/-- Modelled from the spec: the documents matching a query — OR semantics,
a document matches iff it contains at least one query term, i.e. its score
is positive (spec section 4.3). -/
def matchingDocs (s : Store) (qTerms : List String) : List Doc :=
  s.docs.filter (fun d => decide (0 < score qTerms d))

/-- Modelled from the spec: the full ranked result list for a query against
a snapshot. -/
def rankedMatches (s : Store) (q : String) : List Doc :=
  sortRanked (rankLE ((tokenize q).dedup))
    (matchingDocs s ((tokenize q).dedup))

/-- Modelled from the spec: `SearchEngine::Search` — tokenize the query with
the index-time Tokenizer, rank all matches, return the page
`[offset, offset+max)` of DocIds, and set `hasMore` true iff at least one
further match exists beyond `offset + max` (spec section 4.3). -/
def Store.Search (s : Store) (q : String) (offset mx : Nat) :
    List String × Bool :=
  let ms := rankedMatches s q
  (((ms.drop offset).take mx).map Doc.id,
   decide (offset + mx < ms.length))

/-! ## Embedding of the application entry point (main.cpp)

The entry point is embedded as a function from an abstract environment
(command-line arguments plus the outcomes of the external checks main
performs) to an exit code and a trace of the externally visible actions it
takes, in program order. -/

/-- Externally visible actions of `main`, in the order main.cpp performs
them. -/
inductive Ev where
  | setAppDir
  | setVerbose
  | setExtraVerbose
  | showHelp
  | showVersion
  | setOffline
  | setSetup
  | makeDirs
  | lockAcquired
  | lockFailed
  | printLockError
  | setLogPath
  | registerSignals
  | initTempDir
  | constructConfig
  | removeConfigFile
  | setupGmail
  | setupOutlook
  | printUnsupportedService
  | readConfigValues
  | validatePassword
  | initStdErrRedirect
  | constructUi
  | constructImapManager
  | constructSmtpManager
  | addressBookInit
  | runUi
  | cleanup
deriving DecidableEq, Repr

instance : Fintype Ev :=
  ⟨⟨[Ev.setAppDir, Ev.setVerbose, Ev.setExtraVerbose, Ev.showHelp,
     Ev.showVersion, Ev.setOffline, Ev.setSetup, Ev.makeDirs,
     Ev.lockAcquired, Ev.lockFailed, Ev.printLockError, Ev.setLogPath,
     Ev.registerSignals, Ev.initTempDir, Ev.constructConfig,
     Ev.removeConfigFile, Ev.setupGmail, Ev.setupOutlook,
     Ev.printUnsupportedService, Ev.readConfigValues, Ev.validatePassword,
     Ev.initStdErrRedirect, Ev.constructUi, Ev.constructImapManager,
     Ev.constructSmtpManager, Ev.addressBookInit, Ev.runUi, Ev.cleanup],
    by decide⟩, by intro x; cases x <;> decide⟩

/-- Result of the argument-handling loop of `main` (main.cpp lines 83-123):
either an early return with an exit code, or proceed with the collected
`setup` service name; both carry the trace of actions performed while
parsing. -/
inductive ParseOut where
  | exit (code : Nat) (tr : List Ev)
  | proceed (setup : Option String) (tr : List Ev)
deriving DecidableEq, Repr

/-- Prepend one action to the trace of a parse result. -/
def withEv (e : Ev) : ParseOut → ParseOut
  | ParseOut.exit c tr => ParseOut.exit c (e :: tr)
  | ParseOut.proceed s tr => ParseOut.proceed s (e :: tr)

/-- The argument-handling loop of `main` (main.cpp lines 83-123).  `-d` and
`-s` consume a following value argument when one exists (the source checks
`distance(it+1, end) > 0`; when the value is missing the option falls
through to the unknown-argument branch: help plus exit code 1).  `-h` and
`-v` return immediately with exit code 0; an unknown argument returns 1. -/
def parseLoop (setup : Option String) : List String → ParseOut
  | [] => ParseOut.proceed setup []
  | a :: rest =>
    if (a == "-d" || a == "--configdir") && !rest.isEmpty then
      match rest with
      | _ :: rest2 => withEv Ev.setAppDir (parseLoop setup rest2)
      | [] => ParseOut.exit 1 [Ev.showHelp]
    else if a == "-e" || a == "--verbose" then
      withEv Ev.setVerbose (parseLoop setup rest)
    else if a == "-ee" || a == "--extraverbose" then
      withEv Ev.setExtraVerbose (parseLoop setup rest)
    else if a == "-h" || a == "--help" then
      ParseOut.exit 0 [Ev.showHelp]
    else if a == "-o" || a == "--offline" then
      withEv Ev.setOffline (parseLoop setup rest)
    else if (a == "-s" || a == "--setup") && !rest.isEmpty then
      match rest with
      | v :: rest2 => withEv Ev.setSetup (parseLoop (some v) rest2)
      | [] => ParseOut.exit 1 [Ev.showHelp]
    else if a == "-v" || a == "--version" then
      ParseOut.exit 0 [Ev.showVersion]
    else ParseOut.exit 1 [Ev.showHelp]

/-- Abstract environment of one run of `main`: the command-line arguments
and the outcomes of the checks main performs against the outside world
(whether the application directory already exists, whether `DirLock`
acquisition succeeds, whether the configuration validates, whether the IMAP
and SMTP passwords validate). -/
structure MainEnv where
  args : List String
  appDirExists : Bool
  dirLockOk : Bool
  configValid : Bool
  passValid : Bool
  smtpPassValid : Bool
deriving DecidableEq, Repr

/-- Embeds main.cpp lines 204-347: reading the configuration, validating it
(ShowHelp and exit 1 on failure), validating the IMAP and SMTP passwords
(exit 1 on failure), then constructing the Ui, ImapManager and SmtpManager,
initializing the AddressBook, running the UI, cleaning up, and returning
0. -/
def mainAfterConfig (env : MainEnv) (tr : List Ev) : Nat × List Ev :=
  let tr2 := tr ++ [Ev.readConfigValues]
  if env.configValid then
    if env.passValid then
      if env.smtpPassValid then
        (0, tr2 ++ [Ev.validatePassword, Ev.initStdErrRedirect,
                    Ev.constructUi, Ev.constructImapManager,
                    Ev.constructSmtpManager, Ev.addressBookInit,
                    Ev.runUi, Ev.cleanup])
      else (1, tr2 ++ [Ev.validatePassword])
    else (1, tr2 ++ [Ev.validatePassword])
  else (1, tr2 ++ [Ev.showHelp])

/-- Embeds main.cpp lines 139-202: everything `main` does after the
`DirLock` is held — log path, signal handler, temp dir, first Config
construction, then the optional `--setup` wizard (config file removed and
re-created; unsupported service names print an error, show help and exit
1), then the rest of the run. -/
def mainAfterLock (env : MainEnv) (setup : Option String) : Nat × List Ev :=
  let pre := [Ev.setLogPath, Ev.registerSignals, Ev.initTempDir,
              Ev.constructConfig]
  match setup with
  | none => mainAfterConfig env pre
  | some s =>
    if s == "gmail" then
      mainAfterConfig env
        (pre ++ [Ev.removeConfigFile, Ev.constructConfig, Ev.setupGmail])
    else if s == "outlook" then
      mainAfterConfig env
        (pre ++ [Ev.removeConfigFile, Ev.constructConfig, Ev.setupOutlook])
    else
      (1, pre ++ [Ev.removeConfigFile, Ev.constructConfig,
                  Ev.printUnsupportedService, Ev.showHelp])

/-- Embeds `main` (main.cpp lines 74-348): set the application dir, handle
arguments (possibly returning early), create the application dir when
missing, then acquire the `DirLock`; when the lock cannot be acquired print
an error and return 1, performing nothing further; otherwise continue with
the rest of the run. -/
def mainRun (env : MainEnv) : Nat × List Ev :=
  match parseLoop none env.args with
  | ParseOut.exit c tr => (c, Ev.setAppDir :: tr)
  | ParseOut.proceed setup tr =>
    let tr2 := Ev.setAppDir :: tr
      ++ (if env.appDirExists then [] else [Ev.makeDirs])
    if env.dirLockOk then
      let r := mainAfterLock env setup
      (r.1, tr2 ++ Ev.lockAcquired :: r.2)
    else (1, tr2 ++ [Ev.lockFailed, Ev.printLockError])

/-- Construction of a component that is (or owns) store-backed state:
Config, Ui, ImapManager, SmtpManager, AddressBook. -/
def isConstructEv : Ev → Bool
  | Ev.constructConfig => true
  | Ev.constructUi => true
  | Ev.constructImapManager => true
  | Ev.constructSmtpManager => true
  | Ev.addressBookInit => true
  | _ => false

/-- Initialization actions performed only after the lock is held. -/
def isInitEv : Ev → Bool
  | Ev.setLogPath => true
  | Ev.registerSignals => true
  | Ev.initTempDir => true
  | Ev.readConfigValues => true
  | Ev.initStdErrRedirect => true
  | Ev.runUi => true
  | e => isConstructEv e

/-- Actions that can occur during argument handling. -/
def isParseEv : Ev → Bool
  | Ev.setAppDir => true
  | Ev.setVerbose => true
  | Ev.setExtraVerbose => true
  | Ev.showHelp => true
  | Ev.showVersion => true
  | Ev.setOffline => true
  | Ev.setSetup => true
  | _ => false

/-- Actions that can occur after the lock has been acquired. -/
def isPostEv : Ev → Bool
  | Ev.setLogPath => true
  | Ev.registerSignals => true
  | Ev.initTempDir => true
  | Ev.constructConfig => true
  | Ev.removeConfigFile => true
  | Ev.setupGmail => true
  | Ev.setupOutlook => true
  | Ev.printUnsupportedService => true
  | Ev.showHelp => true
  | Ev.readConfigValues => true
  | Ev.validatePassword => true
  | Ev.initStdErrRedirect => true
  | Ev.constructUi => true
  | Ev.constructImapManager => true
  | Ev.constructSmtpManager => true
  | Ev.addressBookInit => true
  | Ev.runUi => true
  | Ev.cleanup => true
  | _ => false

/-- The trace component of a parse result. -/
def traceOf : ParseOut → List Ev
  | ParseOut.exit _ tr => tr
  | ParseOut.proceed _ tr => tr

/-- Scans a trace and checks that no component construction occurs strictly
before the first successful lock acquisition. -/
def lockBeforeConstructs : List Ev → Bool
  | [] => true
  | e :: rest =>
    if e = Ev.lockAcquired then true
    else !(isConstructEv e) && lockBeforeConstructs rest

/-! ## Claim statements -/

/-- Statement of snapshot isolation (claim C2): reads against the Snapshot
opened before staging `ops` and committing are exactly reads of the
pre-commit Store — they cannot observe the commit — while a Snapshot opened
after the successful commit reflects every buffered operation, and in
particular a committed index write is visible to it. -/
def SnapshotIsolationSpec (e : SearchEngine) (ops : List Op) : Prop :=
  (∀ q off mx, (e.GetSnapshot).Search q off mx = e.store.Search q off mx) ∧
  (e.GetSnapshot).ListIds = e.store.ListIds ∧
  (∀ docId, (e.GetSnapshot).ExistsDoc docId = e.store.ExistsDoc docId) ∧
  ((e.stageAll ops).Commit true).1.GetSnapshot.docs
      = applyOps e.store.docs (e.buffer ++ ops) ∧
  (∀ docId ts, ops = [Op.indexDoc docId ts] →
      ((e.stageAll ops).Commit true).1.GetSnapshot.ExistsDoc docId = true)

/-- Statement of pagination consistency (claim C3) for a fixed snapshot
`s`, query `q` and page size `k`. -/
def PaginationSpec (s : Store) (q : String) (k : Nat) : Prop :=
  (rankedMatches s q).length
      = (matchingDocs s ((tokenize q).dedup)).length ∧
  (s.Search q 0 k).1.length = min (rankedMatches s q).length k ∧
  ((s.Search q 0 k).2 = true ↔ k < (rankedMatches s q).length) ∧
  (s.Search q k k).1 = (((rankedMatches s q).drop k).take k).map Doc.id ∧
  ((s.Search q k k).2 = true ↔ 2 * k < (rankedMatches s q).length) ∧
  (∀ off mx,
    ((s.Search q off mx).2 = true ↔ off + mx < (rankedMatches s q).length)) ∧
  (∀ m, (rankedMatches s q).length ≤ m * k →
    ((List.range m).map (fun i => (s.Search q (i * k) k).1)).flatten
      = (rankedMatches s q).map Doc.id)

/-- Statement of replace-never-merge re-indexing (claim C4): after
re-indexing `docId` with `newFields` and committing, the committed term set
of `docId` is exactly the terms tokenized from `newFields`, and a query
sharing no term with the new fields never returns `docId`. -/
def ReindexSpec (e : SearchEngine) (docId : String)
    (newFields : List String) : Prop :=
  Doc.mk docId (tokenizeFields newFields)
      ∈ ((e.Index docId newFields).Commit true).1.store.docs ∧
  (∀ d ∈ ((e.Index docId newFields).Commit true).1.store.docs,
      d.id = docId → d.terms = tokenizeFields newFields) ∧
  (∀ q, (∀ t ∈ tokenize q, t ∉ tokenizeFields newFields) →
      docId ∉
        (rankedMatches ((e.Index docId newFields).Commit true).1.store q).map
          Doc.id)

/-- Statement of tokenizer index/query symmetry (claim C5, amended): the
terms produced when `s` is indexed as field text are exactly the terms
produced when `s` is tokenized as a query, and — provided `s` tokenizes to
at least one term — a document indexed with field text `s` matches a Search
for that same text after commit. -/
def IndexQuerySymmetrySpec (e : SearchEngine) (docId : String)
    (s : String) : Prop :=
  (∀ t, t ∈ tokenizeFields [s] ↔ t ∈ tokenize s) ∧
  docId ∈
    (rankedMatches ((e.Index docId [s]).Commit true).1.store s).map Doc.id

/-- Statement of the committed lifecycle of `Exists` (claim C6). -/
def ExistsLifecycleSpec (e : SearchEngine) (docId : String)
    (fields : List String) : Prop :=
  ((e.Index docId fields).Commit true).1.GetSnapshot.ExistsDoc docId
      = true ∧
  (((e.Index docId fields).Commit true).1.Remove
      docId).GetSnapshot.ExistsDoc docId = true ∧
  ((((e.Index docId fields).Commit true).1.Remove
      docId).Commit true).1.GetSnapshot.ExistsDoc docId = false

/-- Statement of Remove as a total idempotent no-op on absent ids
(claim C7). -/
def RemoveNoopSpec (e : SearchEngine) (docId : String) : Prop :=
  ((e.Remove docId).Commit true).1.store.docs = e.store.docs ∧
  ((e.Remove docId).Commit true).1.store.revision = e.store.revision + 1 ∧
  ((e.Remove docId).Commit true).2 = true ∧
  (∀ docs, applyOp (applyOp docs (Op.removeDoc docId)) (Op.removeDoc docId)
      = applyOp docs (Op.removeDoc docId))

/-- Statement of the single-instance lock discipline of `main`
(claim C10): in every run, no component is constructed before the `DirLock`
acquisition succeeds, and a run in which lock acquisition fails exits with
code 1, prints the lock error, and performs no further initialization and
no component construction. -/
def MainLockSpec (env : MainEnv) : Prop :=
  lockBeforeConstructs (mainRun env).2 = true ∧
  (Ev.lockFailed ∈ (mainRun env).2 →
    (mainRun env).1 = 1 ∧
    Ev.printLockError ∈ (mainRun env).2 ∧
    (∀ e ∈ (mainRun env).2, isConstructEv e = false ∧ isInitEv e = false))

/-! ## Sanity checks -/

example : tokenize "Hello, World!" = ["hello", "world"] := by decide
example : tokenize "!" = [] := by decide
example :
    (Store.Search { docs := [⟨"m1", tokenize "hello world"⟩], revision := 1 }
      "hello" 0 10) = (["m1"], false) := by decide
example :
    mainRun ⟨["-o"], true, false, true, true, true⟩ =
      (1, [Ev.setAppDir, Ev.setOffline, Ev.lockFailed, Ev.printLockError]) :=
  by decide
example :
    mainRun ⟨["-d", "/tmp/x", "-s", "gmail"], false, true, true, true, true⟩ =
      (0, [Ev.setAppDir, Ev.setAppDir, Ev.setSetup, Ev.makeDirs,
           Ev.lockAcquired, Ev.setLogPath, Ev.registerSignals,
           Ev.initTempDir, Ev.constructConfig, Ev.removeConfigFile,
           Ev.constructConfig, Ev.setupGmail, Ev.readConfigValues,
           Ev.validatePassword, Ev.initStdErrRedirect, Ev.constructUi,
           Ev.constructImapManager, Ev.constructSmtpManager,
           Ev.addressBookInit, Ev.runUi, Ev.cleanup]) := by decide

/-! ## Helper lemmas -/

theorem mem_insertRanked {le : Doc → Doc → Bool} {d a : Doc} {l : List Doc} :
    a ∈ insertRanked le d l ↔ a = d ∨ a ∈ l := by
  induction l with
  | nil => simp [insertRanked]
  | cons e es ih =>
    simp only [insertRanked]
    split
    · simp [List.mem_cons]
    · simp only [List.mem_cons, ih]
      tauto

theorem mem_sortRanked {le : Doc → Doc → Bool} {a : Doc} {l : List Doc} :
    a ∈ sortRanked le l ↔ a ∈ l := by
  induction l with
  | nil => simp [sortRanked]
  | cons e es ih => simp [sortRanked, mem_insertRanked, ih]

theorem length_insertRanked (le : Doc → Doc → Bool) (d : Doc) (l : List Doc) :
    (insertRanked le d l).length = l.length + 1 := by
  induction l with
  | nil => simp [insertRanked]
  | cons e es ih =>
    simp only [insertRanked]
    split
    · simp
    · simp [ih]

theorem length_sortRanked (le : Doc → Doc → Bool) (l : List Doc) :
    (sortRanked le l).length = l.length := by
  induction l with
  | nil => simp [sortRanked]
  | cons e es ih => simp [sortRanked, length_insertRanked, ih]

theorem pairwise_insertRanked (le : Doc → Doc → Bool)
    (htot : ∀ a b, le a b = true ∨ le b a = true)
    (htrans : ∀ a b c, le a b = true → le b c = true → le a c = true)
    (d : Doc) (l : List Doc) (h : l.Pairwise (fun a b => le a b = true)) :
    (insertRanked le d l).Pairwise (fun a b => le a b = true) := by
  induction l with
  | nil => simp [insertRanked]
  | cons e es ih =>
    rcases List.pairwise_cons.mp h with ⟨he, hes⟩
    simp only [insertRanked]
    split
    · rename_i hde
      refine List.pairwise_cons.mpr ⟨?_, h⟩
      intro b hb
      rcases List.mem_cons.mp hb with rfl | hb
      · exact hde
      · exact htrans d e b hde (he b hb)
    · rename_i hde
      have hed : le e d = true := by
        rcases htot d e with h1 | h1
        · exact absurd h1 hde
        · exact h1
      refine List.pairwise_cons.mpr ⟨?_, ih hes⟩
      intro b hb
      rcases mem_insertRanked.mp hb with rfl | hb
      · exact hed
      · exact he b hb

theorem pairwise_sortRanked (le : Doc → Doc → Bool)
    (htot : ∀ a b, le a b = true ∨ le b a = true)
    (htrans : ∀ a b c, le a b = true → le b c = true → le a c = true)
    (l : List Doc) :
    (sortRanked le l).Pairwise (fun a b => le a b = true) := by
  induction l with
  | nil => simp [sortRanked]
  | cons e es ih => exact pairwise_insertRanked le htot htrans e _ ih

theorem rankLE_total (q : List String) (a b : Doc) :
    rankLE q a b = true ∨ rankLE q b a = true := by
  simp only [rankLE, rankRel, decide_eq_true_eq]
  rcases Nat.lt_trichotomy (score q b) (score q a) with h | h | h
  · exact Or.inl (Or.inl h)
  · rcases le_total a.id b.id with hid | hid
    · exact Or.inl (Or.inr ⟨h.symm, hid⟩)
    · exact Or.inr (Or.inr ⟨h, hid⟩)
  · exact Or.inr (Or.inl h)

theorem rankLE_trans (q : List String) (a b c : Doc)
    (hab : rankLE q a b = true) (hbc : rankLE q b c = true) :
    rankLE q a c = true := by
  simp only [rankLE, rankRel, decide_eq_true_eq] at hab hbc ⊢
  rcases hab with h1 | ⟨h1, h1id⟩ <;> rcases hbc with h2 | ⟨h2, h2id⟩
  · exact Or.inl (Nat.lt_trans h2 h1)
  · exact Or.inl (h2 ▸ h1)
  · exact Or.inl (h1 ▸ h2)
  · exact Or.inr ⟨h1.trans h2, le_trans h1id h2id⟩

theorem mem_eraseDoc {docId : String} {docs : List Doc} {d : Doc} :
    d ∈ eraseDoc docId docs ↔ d ∈ docs ∧ d.id ≠ docId := by
  simp [eraseDoc, List.mem_filter, bne_iff_ne]

theorem eraseDoc_of_not_mem {docId : String} {docs : List Doc}
    (h : docId ∉ docs.map Doc.id) : eraseDoc docId docs = docs := by
  refine List.filter_eq_self.mpr ?_
  intro d hd
  simp only [bne_iff_ne, ne_eq]
  intro heq
  exact h (List.mem_map.mpr ⟨d, hd, heq⟩)

theorem eraseDoc_idem (docId : String) (docs : List Doc) :
    eraseDoc docId (eraseDoc docId docs) = eraseDoc docId docs := by
  simp [eraseDoc, List.filter_filter]

theorem ExistsDoc_eraseDoc (docId : String) (docs : List Doc) (r : Nat) :
    Store.ExistsDoc ⟨eraseDoc docId docs, r⟩ docId = false := by
  rw [Store.ExistsDoc, List.any_eq_false]
  intro d hd
  rcases mem_eraseDoc.mp hd with ⟨_, hne⟩
  simp [hne]

theorem applyOps_append (docs : List Doc) (l₁ l₂ : List Op) :
    applyOps docs (l₁ ++ l₂) = applyOps (applyOps docs l₁) l₂ :=
  List.foldl_append ..

theorem score_pos_iff (qTerms : List String) (d : Doc) :
    0 < score qTerms d ↔ ∃ t ∈ qTerms, t ∈ d.terms := by
  rw [score, Nat.pos_iff_ne_zero, Ne, List.sum_eq_zero_iff]
  push_neg
  simp only [List.mem_map]
  constructor
  · rintro ⟨x, ⟨t, ht, rfl⟩, hx⟩
    exact ⟨t, ht, List.count_pos_iff.mp (Nat.pos_of_ne_zero hx)⟩
  · rintro ⟨t, ht, hmem⟩
    exact ⟨d.terms.count t, ⟨t, ht, rfl⟩,
      Nat.pos_iff_ne_zero.mp (List.count_pos_iff.mpr hmem)⟩

theorem mem_matchingDocs {s : Store} {qTerms : List String} {d : Doc} :
    d ∈ matchingDocs s qTerms ↔ d ∈ s.docs ∧ 0 < score qTerms d := by
  simp [matchingDocs, List.mem_filter]

theorem mem_rankedMatches {s : Store} {q : String} {d : Doc} :
    d ∈ rankedMatches s q ↔
      d ∈ s.docs ∧ 0 < score ((tokenize q).dedup) d := by
  rw [rankedMatches, mem_sortRanked, mem_matchingDocs]

theorem length_rankedMatches (s : Store) (q : String) :
    (rankedMatches s q).length =
      (matchingDocs s ((tokenize q).dedup)).length :=
  length_sortRanked ..

theorem flatten_pages {α : Type} (l : List α) (k : Nat) (m : Nat) :
    ((List.range m).map (fun i => (l.drop (i * k)).take k)).flatten
      = l.take (m * k) := by
  induction m with
  | zero => simp
  | succ m ih =>
    rw [List.range_succ, List.map_append, List.flatten_append, ih]
    rw [Nat.succ_mul, List.take_add]
    simp

theorem traceOf_withEv (e : Ev) (out : ParseOut) :
    traceOf (withEv e out) = e :: traceOf out := by
  cases out <;> rfl

theorem traceOf_exit (c : Nat) (tr : List Ev) :
    traceOf (ParseOut.exit c tr) = tr := rfl

theorem traceOf_proceed (s : Option String) (tr : List Ev) :
    traceOf (ParseOut.proceed s tr) = tr := rfl

theorem parseLoop_cons (setup : Option String) (a : String)
    (rest : List String) :
    parseLoop setup (a :: rest) =
      (if (a == "-d" || a == "--configdir") && !rest.isEmpty then
        match rest with
        | _ :: rest2 => withEv Ev.setAppDir (parseLoop setup rest2)
        | [] => ParseOut.exit 1 [Ev.showHelp]
      else if a == "-e" || a == "--verbose" then
        withEv Ev.setVerbose (parseLoop setup rest)
      else if a == "-ee" || a == "--extraverbose" then
        withEv Ev.setExtraVerbose (parseLoop setup rest)
      else if a == "-h" || a == "--help" then
        ParseOut.exit 0 [Ev.showHelp]
      else if a == "-o" || a == "--offline" then
        withEv Ev.setOffline (parseLoop setup rest)
      else if (a == "-s" || a == "--setup") && !rest.isEmpty then
        match rest with
        | v :: rest2 => withEv Ev.setSetup (parseLoop (some v) rest2)
        | [] => ParseOut.exit 1 [Ev.showHelp]
      else if a == "-v" || a == "--version" then
        ParseOut.exit 0 [Ev.showVersion]
      else ParseOut.exit 1 [Ev.showHelp]) := by
  rw [parseLoop.eq_def]

theorem parseLoop_trace_parse (setup : Option String) (args : List String) :
    ∀ e ∈ traceOf (parseLoop setup args), isParseEv e = true := by
  induction setup, args using parseLoop.induct with
  | case1 s =>
    intro e he
    simp [parseLoop, traceOf] at he
  | case2 s a v rest2 h ih =>
    intro e he
    simp only [parseLoop, if_pos h, traceOf_withEv] at he
    rcases List.mem_cons.mp he with rfl | he
    · rfl
    · exact ih e he
  | case3 s a h =>
    intro e he
    simp at h
  | case4 s a rest h1 h2 ih =>
    intro e he
    rw [parseLoop_cons, if_neg h1, if_pos h2, traceOf_withEv] at he
    rcases List.mem_cons.mp he with rfl | he
    · rfl
    · exact ih e he
  | case5 s a rest h1 h2 h3 ih =>
    intro e he
    rw [parseLoop_cons, if_neg h1, if_neg h2, if_pos h3,
      traceOf_withEv] at he
    rcases List.mem_cons.mp he with rfl | he
    · rfl
    · exact ih e he
  | case6 s a rest h1 h2 h3 h4 =>
    intro e he
    rw [parseLoop_cons, if_neg h1, if_neg h2, if_neg h3, if_pos h4,
      traceOf_exit] at he
    rw [List.mem_singleton] at he
    subst he
    rfl
  | case7 s a rest h1 h2 h3 h4 h5 ih =>
    intro e he
    rw [parseLoop_cons, if_neg h1, if_neg h2, if_neg h3, if_neg h4,
      if_pos h5, traceOf_withEv] at he
    rcases List.mem_cons.mp he with rfl | he
    · rfl
    · exact ih e he
  | case8 s a h2 h3 h4 h5 v rest2 h1 h6 ih =>
    intro e he
    simp only [parseLoop, if_neg h1, if_neg h2, if_neg h3, if_neg h4,
      if_neg h5, if_pos h6, traceOf_withEv] at he
    rcases List.mem_cons.mp he with rfl | he
    · rfl
    · exact ih e he
  | case9 s a h2 h3 h4 h5 h1 h6 =>
    intro e he
    simp at h6
  | case10 s a rest h1 h2 h3 h4 h5 h6 h7 =>
    intro e he
    rw [parseLoop_cons, if_neg h1, if_neg h2, if_neg h3, if_neg h4,
      if_neg h5, if_neg h6, if_pos h7, traceOf_exit] at he
    rw [List.mem_singleton] at he
    subst he
    rfl
  | case11 s a rest h1 h2 h3 h4 h5 h6 h7 =>
    intro e he
    rw [parseLoop_cons, if_neg h1, if_neg h2, if_neg h3, if_neg h4,
      if_neg h5, if_neg h6, if_neg h7, traceOf_exit] at he
    rw [List.mem_singleton] at he
    subst he
    rfl

theorem parseEv_not_construct :
    ∀ e : Ev, isParseEv e = true → isConstructEv e = false ∧ isInitEv e = false := by
  decide

theorem postEv_ne_lockFailed :
    ∀ e : Ev, isPostEv e = true → e ≠ Ev.lockFailed := by
  decide

theorem afterLock_events (env : MainEnv) (setup : Option String) :
    ∀ e ∈ (mainAfterLock env setup).2, isPostEv e = true := by
  obtain ⟨args, ade, dlo, cv, pv, spv⟩ := env
  rcases setup with _ | s
  · cases cv <;> cases pv <;> cases spv <;>
      simp [mainAfterLock, mainAfterConfig] <;> decide
  · cases cv <;> cases pv <;> cases spv <;>
      simp only [mainAfterLock, mainAfterConfig] <;>
      split_ifs <;> simp <;> decide

theorem lockBefore_of_no_construct (t : List Ev)
    (h : ∀ e ∈ t, isConstructEv e = false) :
    lockBeforeConstructs t = true := by
  induction t with
  | nil => rfl
  | cons e rest ih =>
    rw [lockBeforeConstructs]
    split
    · rfl
    · rw [h e (List.mem_cons_self e rest),
        ih (fun x hx => h x (List.mem_cons_of_mem _ hx))]
      rfl

theorem lockBefore_append_acquired (t₁ t₂ : List Ev)
    (h : ∀ e ∈ t₁, isConstructEv e = false) :
    lockBeforeConstructs (t₁ ++ Ev.lockAcquired :: t₂) = true := by
  induction t₁ with
  | nil => rfl
  | cons e rest ih =>
    rw [List.cons_append, lockBeforeConstructs]
    split
    · rfl
    · rw [h e (List.mem_cons_self e rest),
        ih (fun x hx => h x (List.mem_cons_of_mem _ hx))]
      rfl

/-! ## Claim theorems -/

/-- C1: Commit is atomic and error-preserving.  On success every buffered
operation since the previous commit is applied to the committed Store at a
new revision and the buffer is cleared; on I/O failure the engine is
returned unchanged — same Store, same revision, and the Write Buffer still
holds its pending operations — while failure is signalled to the caller. -/
theorem commit_atomic (e : SearchEngine) :
    (e.Commit true).1.store.docs = applyOps e.store.docs e.buffer ∧
    (e.Commit true).1.store.revision = e.store.revision + 1 ∧
    (e.Commit true).1.buffer = [] ∧
    (e.Commit true).2 = true ∧
    e.Commit false = (e, false) :=
  ⟨rfl, rfl, rfl, rfl, rfl⟩

/-- C2: snapshot isolation.  Reads (Search, List, Exists) against a
Snapshot opened before a commit are exactly reads of the pre-commit Store,
so they never observe writes committed afterwards; a Snapshot opened after
the successful commit reflects every buffered operation, and in particular
a committed index write is visible to it. -/
theorem snapshot_isolation (e : SearchEngine) (ops : List Op) :
    SnapshotIsolationSpec e ops := by
  refine ⟨fun q off mx => rfl, rfl, fun docId => rfl, rfl, ?_⟩
  rintro docId ts rfl
  show Store.ExistsDoc _ docId = true
  simp only [SearchEngine.stageAll, SearchEngine.Commit, if_pos rfl,
    SearchEngine.GetSnapshot, applyOps_append]
  show Store.ExistsDoc
    ⟨applyOps (applyOps e.store.docs e.buffer) [Op.indexDoc docId ts], _⟩
      docId = true
  show Store.ExistsDoc
    ⟨applyOp (applyOps e.store.docs e.buffer) (Op.indexDoc docId ts), _⟩
      docId = true
  rw [applyOp, Store.ExistsDoc]
  simp

/-- C2 witness: the isolation statement applied to a concrete engine and a
concrete committed write. -/
theorem snapshot_isolation_witness :
    SnapshotIsolationSpec
      { store := { docs := [], revision := 0 }, buffer := [] }
      [Op.indexDoc "m1" ["hello"]] :=
  snapshot_isolation _ _

/-- C6: Exists tracks the committed lifecycle: after indexing and
committing a document its id Exists; staging a Remove without committing
leaves it existing; committing the Remove makes it not exist. -/
theorem exists_lifecycle (e : SearchEngine) (docId : String)
    (fields : List String) (hbuf : e.buffer = []) :
    ExistsLifecycleSpec e docId fields := by
  obtain ⟨⟨docs, rev⟩, buf⟩ := e
  simp only at hbuf
  subst hbuf
  refine ⟨?_, ?_, ?_⟩
  · show Store.ExistsDoc
      ⟨applyOps docs ([] ++ [Op.indexDoc docId (tokenizeFields fields)]),
        rev + 1⟩ docId = true
    show Store.ExistsDoc
      ⟨eraseDoc docId docs ++ [⟨docId, tokenizeFields fields⟩], rev + 1⟩
        docId = true
    rw [Store.ExistsDoc]
    simp
  · show Store.ExistsDoc
      ⟨applyOps docs ([] ++ [Op.indexDoc docId (tokenizeFields fields)]),
        rev + 1⟩ docId = true
    show Store.ExistsDoc
      ⟨eraseDoc docId docs ++ [⟨docId, tokenizeFields fields⟩], rev + 1⟩
        docId = true
    rw [Store.ExistsDoc]
    simp
  · show Store.ExistsDoc
      ⟨applyOps
        (applyOps docs ([] ++ [Op.indexDoc docId (tokenizeFields fields)]))
        ([] ++ [Op.removeDoc docId]), rev + 2⟩ docId = false
    show Store.ExistsDoc
      ⟨eraseDoc docId
        (applyOps docs ([] ++ [Op.indexDoc docId (tokenizeFields fields)])),
        rev + 2⟩ docId = false
    exact ExistsDoc_eraseDoc ..

/-- C6 witness: the lifecycle applied to a concrete engine and document. -/
theorem exists_lifecycle_witness :
    ExistsLifecycleSpec
      { store := { docs := [], revision := 0 }, buffer := [] }
      "m1" ["hello world"] :=
  exists_lifecycle _ _ _ rfl

/-- C7: Remove is a total, idempotent no-op on ids absent from the Store:
staging it and committing succeeds, changes no committed document (only the
revision advances), and applying the same Remove twice has the same effect
as applying it once. -/
theorem remove_noop_idempotent (e : SearchEngine) (docId : String)
    (hbuf : e.buffer = []) (habs : docId ∉ e.store.ListIds) :
    RemoveNoopSpec e docId := by
  obtain ⟨⟨docs, rev⟩, buf⟩ := e
  simp only at hbuf
  subst hbuf
  rw [Store.ListIds] at habs
  refine ⟨?_, rfl, rfl, ?_⟩
  · show applyOps docs ([] ++ [Op.removeDoc docId]) = docs
    show eraseDoc docId docs = docs
    exact eraseDoc_of_not_mem habs
  · intro ds
    show eraseDoc docId (eraseDoc docId ds) = eraseDoc docId ds
    exact eraseDoc_idem ..

/-- C7 witness: Remove of an id absent from a concrete store. -/
theorem remove_noop_idempotent_witness :
    RemoveNoopSpec
      { store := { docs := [⟨"m2", ["hello"]⟩], revision := 1 },
        buffer := [] } "m1" :=
  remove_noop_idempotent _ _ rfl (by decide)

/-- C9: a query that tokenizes to no terms (in particular the empty
string) is not an error: Search returns the empty result sequence with
hasMore false, for every offset and page size. -/
theorem empty_query_search (s : Store) (q : String)
    (hq : tokenize q = []) (off mx : Nat) :
    s.Search q off mx = ([], false) := by
  have hms : rankedMatches s q = [] := by
    rw [rankedMatches, hq]
    have hmd : matchingDocs s (List.dedup []) = [] := by
      rw [List.dedup_nil]
      rw [matchingDocs]
      simp [score]
    rw [hmd]
    rfl
  rw [Store.Search]
  simp [hms]

/-- C9 witness: the empty query against a concrete nonempty store. -/
theorem empty_query_search_witness :
    Store.Search { docs := [⟨"m1", ["hello"]⟩], revision := 1 } "" 0 10
      = ([], false) :=
  empty_query_search _ "" rfl 0 10

/-- C8: read results are deterministic for a fixed Snapshot: Search and
List are functions of the snapshot value alone — repeated calls with the
same arguments return identical results — and the underlying ranked match
list is sorted by the ranking order (descending score with the DocId
tie-break), which is total and transitive, so the order is uniquely
determined. -/
theorem search_deterministic (s : Store) (q : String) (off mx : Nat) :
    s.Search q off mx = s.Search q off mx ∧
    s.ListIds = s.ListIds ∧
    (rankedMatches s q).Pairwise
      (fun a b => rankLE ((tokenize q).dedup) a b = true) :=
  ⟨rfl, rfl,
    pairwise_sortRanked _ (rankLE_total ((tokenize q).dedup))
      (rankLE_trans ((tokenize q).dedup)) _⟩

theorem flatten_pages_map {α β : Type} (f : α → β) (l : List α) (k m : Nat) :
    ((List.range m).map (fun i => ((l.drop (i * k)).take k).map f)).flatten
      = (l.take (m * k)).map f := by
  induction m with
  | zero => simp
  | succ m ih =>
    rw [List.range_succ, List.map_append, List.flatten_append, ih,
      Nat.succ_mul, List.take_add]
    simp

/-- C3: pagination consistency of Search over a fixed snapshot: the ranked
match list has exactly one entry per matching committed document; the first
page holds `min N k` results with hasMore true iff `N > k`; the second page
is the next slice with hasMore true iff `N > 2k`; hasMore is true exactly
when a further match exists beyond `offset + max`; and concatenating the
pages in offset order reproduces the full ranked result list. -/
theorem search_pagination (s : Store) (q : String) (k : Nat)
    (hk : 0 < k) : PaginationSpec s q k := by
  refine ⟨length_rankedMatches s q, ?_, ?_, rfl, ?_, ?_, ?_⟩
  · show ((((rankedMatches s q).drop 0).take k).map Doc.id).length = _
    rw [List.length_map, List.drop_zero, List.length_take, Nat.min_comm]
  · show decide (0 + k < (rankedMatches s q).length) = true ↔ _
    rw [decide_eq_true_eq, Nat.zero_add]
  · show decide (k + k < (rankedMatches s q).length) = true ↔ _
    rw [decide_eq_true_eq, two_mul]
  · intro off mx
    show decide (off + mx < (rankedMatches s q).length) = true ↔ _
    rw [decide_eq_true_eq]
  · intro m hm
    show ((List.range m).map
        (fun i => (((rankedMatches s q).drop (i * k)).take k).map Doc.id)).flatten = _
    rw [flatten_pages_map, List.take_of_length_le hm]

/-- C3 witness: pagination over a concrete snapshot with two matching
documents and page size 1. -/
theorem search_pagination_witness :
    PaginationSpec
      { docs := [⟨"m1", ["hello", "world"]⟩, ⟨"m2", ["hello", "there"]⟩],
        revision := 2 } "hello" 1 :=
  search_pagination _ _ 1 (by decide)

/-- C4: re-indexing replaces, never merges: for a DocId already committed
with some term set, indexing it again with new fields and committing leaves
exactly the terms tokenized from the new fields on that id, so a query
sharing no term with the new fields (for example one matching only the old
fields) returns no match for that id post-commit. -/
theorem reindex_replaces (e : SearchEngine) (docId : String)
    (oldTerms : List String) (newFields : List String)
    (hbuf : e.buffer = [])
    (hold : Doc.mk docId oldTerms ∈ e.store.docs) :
    ReindexSpec e docId newFields := by
  obtain ⟨⟨docs, rev⟩, buf⟩ := e
  simp only at hbuf hold
  subst hbuf
  have hdocs :
      ((SearchEngine.Index ⟨⟨docs, rev⟩, []⟩ docId newFields).Commit
          true).1.store.docs
        = eraseDoc docId docs ++ [⟨docId, tokenizeFields newFields⟩] := rfl
  have hrepl : ∀ d ∈ eraseDoc docId docs
        ++ [(⟨docId, tokenizeFields newFields⟩ : Doc)],
      d.id = docId → d.terms = tokenizeFields newFields := by
    intro d hd hid
    rcases List.mem_append.mp hd with hd | hd
    · exact absurd hid (mem_eraseDoc.mp hd).2
    · rw [List.mem_singleton] at hd
      subst hd
      rfl
  refine ⟨?_, ?_, ?_⟩
  · rw [hdocs]
    exact List.mem_append_right _ (List.mem_singleton_self _)
  · intro d hd
    rw [hdocs] at hd
    exact hrepl d hd
  · intro q hq hmem
    rcases List.mem_map.mp hmem with ⟨d, hd, hid⟩
    rcases mem_rankedMatches.mp hd with ⟨hdd, hscore⟩
    rw [hdocs] at hdd
    have hterms := hrepl d hdd hid
    rcases (score_pos_iff _ _).mp hscore with ⟨t, ht, htd⟩
    rw [hterms] at htd
    exact hq t (List.mem_dedup.mp ht) htd

/-- C4 witness: re-indexing a concretely committed document with disjoint
new fields; the old-only query no longer matches. -/
theorem reindex_replaces_witness :
    ReindexSpec
      { store := { docs := [⟨"m1", ["hello", "world"]⟩], revision := 1 },
        buffer := [] } "m1" ["goodbye moon"] :=
  reindex_replaces _ _ ["hello", "world"] _ rfl (by decide)

/-- C5 counterexample: the claim as stated fails for an input string that
tokenizes to no terms.  The string "!" produces no terms, so a document
indexed with field text "!" and committed is present in the Store yet is
not a match for a Search of that same text: the result is empty.  (The
spec itself forces this: empty queries must yield an empty match set.) -/
theorem index_query_symmetry_counterexample :
    tokenize "!" = [] ∧
    ((({ store := { docs := [], revision := 0 }, buffer := [] } :
        SearchEngine).Index "m1" ["!"]).Commit true).1.store.ListIds
      = ["m1"] ∧
    "m1" ∉ (rankedMatches
        ((({ store := { docs := [], revision := 0 }, buffer := [] } :
          SearchEngine).Index "m1" ["!"]).Commit true).1.store "!").map
        Doc.id ∧
    ((({ store := { docs := [], revision := 0 }, buffer := [] } :
        SearchEngine).Index "m1" ["!"]).Commit true).1.store.Search "!" 0 10
      = ([], false) := by
  decide

/-- C5 (amended): the same tokenizer is used at index and query time — the
terms produced when `s` is indexed are exactly those produced when `s` is
tokenized as a query — and, provided `s` tokenizes to at least one term, a
document indexed with field text `s` is a match for a Search of that same
text after commit. -/
theorem index_query_symmetry (e : SearchEngine) (docId : String)
    (s : String) (hbuf : e.buffer = []) (hne : tokenize s ≠ []) :
    IndexQuerySymmetrySpec e docId s := by
  obtain ⟨⟨docs, rev⟩, buf⟩ := e
  simp only at hbuf
  subst hbuf
  constructor
  · intro t
    rw [tokenizeFields]
    simp
  · have hdocs :
        ((SearchEngine.Index ⟨⟨docs, rev⟩, []⟩ docId [s]).Commit
            true).1.store.docs
          = eraseDoc docId docs ++ [⟨docId, tokenizeFields [s]⟩] := rfl
    rcases List.exists_mem_of_ne_nil _ hne with ⟨t, ht⟩
    refine List.mem_map.mpr ⟨⟨docId, tokenizeFields [s]⟩, ?_, rfl⟩
    refine mem_rankedMatches.mpr ⟨?_, ?_⟩
    · rw [hdocs]
      exact List.mem_append_right _ (List.mem_singleton_self _)
    · refine (score_pos_iff _ _).mpr ⟨t, List.mem_dedup.mpr ht, ?_⟩
      show t ∈ tokenizeFields [s]
      rw [tokenizeFields]
      simp [ht]

/-- C5 witness: a concrete document indexed with "Hello World" matches the
query "Hello World" after commit. -/
theorem index_query_symmetry_witness :
    IndexQuerySymmetrySpec
      { store := { docs := [], revision := 0 }, buffer := [] }
      "m1" "Hello World" :=
  index_query_symmetry _ _ _ rfl (by decide)

theorem preLock_no_construct (tr : List Ev) (b : Bool)
    (htr : ∀ e ∈ tr, isParseEv e = true) :
    ∀ e ∈ Ev.setAppDir :: tr ++ (if b then [] else [Ev.makeDirs]),
      isConstructEv e = false ∧ isInitEv e = false := by
  intro e he
  rcases List.mem_cons.mp he with rfl | he
  · exact ⟨rfl, rfl⟩
  rcases List.mem_append.mp he with he | he
  · exact parseEv_not_construct e (htr e he)
  · cases b
    · rw [if_neg (by simp), List.mem_singleton] at he
      subst he
      exact ⟨rfl, rfl⟩
    · rw [if_pos rfl] at he
      simp at he

/-- C10: the single-instance precondition is enforced at startup: in every
run of `main`, no component (Config, Ui, ImapManager, SmtpManager,
AddressBook — everything that owns store-backed state) is constructed
before the `DirLock` on the application directory is successfully
acquired; and whenever lock acquisition fails, `main` prints the lock
error, returns exit code 1, and performs no component construction and no
further initialization. -/
theorem main_lock_before_stores (env : MainEnv) : MainLockSpec env := by
  have hparse := parseLoop_trace_parse none env.args
  rcases hp : parseLoop none env.args with ⟨c, tr⟩ | ⟨setup, tr⟩
  · -- early return from argument handling: no lock, no constructions
    rw [hp, traceOf_exit] at hparse
    have h2 : mainRun env = (c, Ev.setAppDir :: tr) := by
      rw [mainRun, hp]
    constructor
    · rw [h2]
      apply lockBefore_of_no_construct
      intro e he
      rcases List.mem_cons.mp he with rfl | he
      · rfl
      · exact (parseEv_not_construct e (hparse e he)).1
    · intro hmem
      exfalso
      rw [h2] at hmem
      rcases List.mem_cons.mp hmem with h | h
      · exact Ev.noConfusion h
      · have h3 := hparse _ h
        simp [isParseEv] at h3
  · rw [hp, traceOf_proceed] at hparse
    cases hl : env.dirLockOk
    · -- lock acquisition fails: error, exit 1, nothing further
      have h2 : mainRun env = (1,
          (Ev.setAppDir :: tr
            ++ (if env.appDirExists then [] else [Ev.makeDirs]))
          ++ [Ev.lockFailed, Ev.printLockError]) := by
        rw [mainRun, hp, hl]
        rfl
      have hall : ∀ e ∈ (Ev.setAppDir :: tr
            ++ (if env.appDirExists then [] else [Ev.makeDirs]))
          ++ [Ev.lockFailed, Ev.printLockError],
          isConstructEv e = false ∧ isInitEv e = false := by
        intro e he
        rcases List.mem_append.mp he with he | he
        · exact preLock_no_construct tr env.appDirExists hparse e he
        · simp only [List.mem_cons, List.mem_singleton] at he
          rcases he with rfl | rfl | he
          · exact ⟨rfl, rfl⟩
          · exact ⟨rfl, rfl⟩
          · simp at he
      constructor
      · rw [h2]
        apply lockBefore_of_no_construct
        intro e he
        exact (hall e he).1
      · intro _
        refine ⟨?_, ?_, ?_⟩
        · rw [h2]
        · rw [h2]
          simp
        · rw [h2]
          exact hall
    · -- lock acquired: it precedes every construction, and the failure
      -- event never occurs
      have h2 : mainRun env = ((mainAfterLock env setup).1,
          (Ev.setAppDir :: tr
            ++ (if env.appDirExists then [] else [Ev.makeDirs]))
          ++ Ev.lockAcquired :: (mainAfterLock env setup).2) := by
        rw [mainRun, hp, hl]
        rfl
      constructor
      · rw [h2]
        apply lockBefore_append_acquired
        intro e he
        exact (preLock_no_construct tr env.appDirExists hparse e he).1
      · intro hmem
        exfalso
        rw [h2] at hmem
        rcases List.mem_append.mp hmem with h | h
        · rcases List.mem_cons.mp h with h | h
          · exact Ev.noConfusion h
          rcases List.mem_append.mp h with h | h
          · have h3 := hparse _ h
            simp [isParseEv] at h3
          · cases henv : env.appDirExists
            · rw [henv, if_neg (by simp), List.mem_singleton] at h
              exact Ev.noConfusion h
            · rw [henv, if_pos rfl] at h
              simp at h
        · rcases List.mem_cons.mp h with h | h
          · exact Ev.noConfusion h
          · exact postEv_ne_lockFailed _ (afterLock_events env setup _ h) rfl

/-- C10 witness: a concrete run whose lock acquisition fails: exit code 1,
the error is printed, and no construction or initialization happens. -/
theorem main_lock_before_stores_witness :
    lockBeforeConstructs
        (mainRun ⟨["-o"], true, false, true, true, true⟩).2 = true ∧
    ((mainRun ⟨["-o"], true, false, true, true, true⟩).1 = 1 ∧
     Ev.printLockError ∈ (mainRun ⟨["-o"], true, false, true, true, true⟩).2 ∧
     (∀ e ∈ (mainRun ⟨["-o"], true, false, true, true, true⟩).2,
        isConstructEv e = false ∧ isInitEv e = false)) :=
  ⟨(main_lock_before_stores _).1,
   (main_lock_before_stores _).2 (by decide)⟩
